import Mathlib

/-!
Shallow embedding of the KloX object/value runtime (src/runtime/src/lox_runtime.h,
lox_runtime.cpp, main.cpp).

Modelling conventions:
* C++ `double` is modelled by `ℚ` (exact arithmetic with a decidable, exact zero
  test); none of the verified properties depend on IEEE-754 rounding, and the
  division-by-zero guard in `divide` fires before any division, exactly as in
  the source.
* `std::shared_ptr<LoxInstance>` is modelled by a natural-number id into an
  explicit heap (`Heap`), because instances are mutable shared state
  (`LoxInstance::set` mutates the pointee).  Classes are immutable after
  construction, so `std::shared_ptr<LoxClass>` is modelled by the class value
  itself.
* every error the runtime raises is a `std::runtime_error` carrying only a
  message string, so failures are modelled as `Except String`; the spec's error
  taxonomy (TypeError, ArithmeticError, ArityError, PropertyError) corresponds
  one-to-one to the message strings.
* the host routines wrapped by `LoxFunction` (`std::function` bodies) are
  defunctionalized into `HostBody`, covering exactly the bodies that occur in
  the repository (main.cpp): a body returning a constant number (the `clockFn`
  native), a body that stores `args[1]` into a field of the receiver `args[0]`
  (the `initFn` constructor), and a body that ignores its arguments and returns
  nil (the `sayHello` method, whose console output is not modelled).  These
  bodies do not call back into the runtime, matching the source.
-/

/-- Host routines wrapped by `LoxFunction` (the `std::function` bodies built in
main.cpp), defunctionalized. -/
inductive HostBody where
  | constNum (x : ℚ)
  | constNil
  | initSetValue (field : String)
deriving DecidableEq

mutual
/-- Embeds `LoxCallable` and its three concrete subclasses: `LoxFunction`
(fields `argCount`, `body`), `LoxBoundMethod` (fields `method`, `instance`,
the latter a heap id), and `LoxClass` used as a callable. -/
inductive LoxCallable where
  | func (argCount : Nat) (body : HostBody)
  | bound (method : LoxCallable) (inst : Nat)
  | cls (c : LoxClass)

/-- Embeds `LoxClass`: name, optional superclass, and the method table
(`std::unordered_map<std::string, std::shared_ptr<LoxCallable>>`, keys unique,
modelled as an association list). -/
inductive LoxClass where
  | mk (name : String) (superclass : Option LoxClass)
       (methods : List (String × LoxCallable))
end

/-- Accessor for the `name` field of `LoxClass`. -/
def LoxClass.name : LoxClass → String
  | .mk n _ _ => n

/-- Accessor for the `superclass` field of `LoxClass`. -/
def LoxClass.superclass : LoxClass → Option LoxClass
  | .mk _ s _ => s

/-- Accessor for the `methods` field of `LoxClass`. -/
def LoxClass.methods : LoxClass → List (String × LoxCallable)
  | .mk _ _ ms => ms

/-- Embeds the `Value` variant
`std::variant<double, std::string, bool, std::nullptr_t,
shared_ptr<LoxCallable>, shared_ptr<LoxInstance>, shared_ptr<LoxClass>>`,
in declaration order.  The instance alternative carries a heap id. -/
inductive Value where
  | num (x : ℚ)
  | text (s : String)
  | bool (b : Bool)
  | nil
  | callable (c : LoxCallable)
  | inst (id : Nat)
  | klass (c : LoxClass)

/-- Embeds `std::variant::index()` on `Value`, following the alternative order
of the `using Value = std::variant<...>` declaration. -/
def Value.variantIndex : Value → Nat
  | .num _ => 0
  | .text _ => 1
  | .bool _ => 2
  | .nil => 3
  | .callable _ => 4
  | .inst _ => 5
  | .klass _ => 6

/-- Embeds `LoxInstance`: the owning class and the mutable field table
(`std::unordered_map<std::string, Value>`, keys unique, modelled as an
association list). -/
structure LoxInstance where
  klass : LoxClass
  fields : List (String × Value)

/-- The instance heap: `shared_ptr<LoxInstance>` values are ids (positions)
into this list.  `std::make_shared<LoxInstance>` appends a fresh record. -/
abbrev Heap := List LoxInstance

/-- Embeds `unordered_map::find` on an association list with unique keys:
returns the value bound to the first occurrence of the key, if any. -/
def assocFind {β : Type} (k : String) : List (String × β) → Option β
  | [] => none
  | (k', v) :: rest => if k' = k then some v else assocFind k rest

/-- Embeds `unordered_map::operator[] =` (insert-or-overwrite) on an
association list with unique keys. -/
def assocInsert {β : Type} (k : String) (v : β) :
    List (String × β) → List (String × β)
  | [] => [(k, v)]
  | (k', v') :: rest =>
      if k' = k then (k, v) :: rest else (k', v') :: assocInsert k v rest

/-- Reads the instance record at a heap id (`shared_ptr` dereference; the
`none` case cannot arise for ids produced by the runtime). -/
def heapGet (h : Heap) (id : Nat) : Option LoxInstance :=
  List.get? h id

/-- Embeds `LoxInstance::set`: `fields[name] = value` on the instance at the
given heap id.  A dangling id (impossible for runtime-produced ids) leaves the
heap unchanged. -/
def LoxInstance.set (h : Heap) (id : Nat) (name : String) (v : Value) : Heap :=
  match heapGet h id with
  | some r => List.set h id ⟨r.klass, assocInsert name v r.fields⟩
  | none => h

/-- Interprets a defunctionalized host routine.  `initSetValue` embeds the
`initFn` body of main.cpp: `SELF = std::get<shared_ptr<LoxInstance>>(args[0])`
then `instance->set(field, args[1])`, returning `nullptr`.  An argument list
that does not start with an instance followed by one more value would be
undefined behaviour in the source (`bad_variant_access` or out-of-range
indexing) and is collapsed to a single model error. -/
def runBody : HostBody → List Value → Heap → Except String (Value × Heap)
  | .constNum x, _, h => .ok (.num x, h)
  | .constNil, _, h => .ok (.nil, h)
  | .initSetValue fld, args, h =>
      match args with
      | .inst id :: arg :: _ => .ok (.nil, LoxInstance.set h id fld arg)
      | _ => .error "bad host routine invocation"

theorem assocFind_sizeOf {β : Type} [SizeOf β] {k : String} {v : β} :
    ∀ {l : List (String × β)}, assocFind k l = some v → sizeOf v < sizeOf l := by
  intro l
  induction l with
  | nil => intro h; simp [assocFind] at h
  | cons p rest ih =>
      obtain ⟨k', v'⟩ := p
      intro h
      by_cases hk : k' = k
      · simp [assocFind, hk] at h
        subst h
        simp
        omega
      · simp [assocFind, hk] at h
        have := ih h
        simp
        omega

theorem methods_sizeOf_lt (c : LoxClass) : sizeOf c.methods < sizeOf c := by
  cases c with
  | mk n s ms => simp [LoxClass.methods]

/-- Embeds the virtual `LoxCallable::call`, dispatching on the concrete
subclass:
* `LoxFunction::call`: throws "Wrong arity." when `args.size() != argCount`,
  otherwise runs the wrapped body;
* `LoxBoundMethod::call`: prepends the receiver instance to the arguments and
  delegates to the wrapped method;
* `LoxClass::call`: allocates a fresh instance of the class with an empty
  field table, and when an `init` method exists, constructs a
  `LoxBoundMethod(init, instance)` and calls it with `args`, discarding its
  result; errors from that call propagate.  The bound-init call appears here
  unfolded by one step (`init` called on the receiver-prepended arguments),
  which is exactly `LoxBoundMethod::call`'s defining equation; the unfolding
  is needed for the termination measure and is proved equivalent in
  `call_bound`. -/
def LoxCallable.call : LoxCallable → List Value → Heap → Except String (Value × Heap)
  | .func n b, args, h =>
      if args.length = n then runBody b args h else .error "Wrong arity."
  | .bound m i, args, h => LoxCallable.call m (.inst i :: args) h
  | .cls c, args, h =>
      match hm : assocFind "init" c.methods with
      | some init =>
          match LoxCallable.call init (.inst h.length :: args) (h ++ [⟨c, []⟩]) with
          | .ok (_, h2) => .ok (.inst h.length, h2)
          | .error e => .error e
      | none => .ok (.inst h.length, h ++ [⟨c, []⟩])
termination_by c _ _ => sizeOf c
decreasing_by
  · simp
    omega
  · have h1 := assocFind_sizeOf hm
    have h2 := methods_sizeOf_lt c
    simp
    omega

/-- Embeds the virtual `LoxCallable::arity`:
* `LoxFunction::arity` returns `argCount`;
* `LoxBoundMethod::arity` delegates to the wrapped method;
* `LoxClass::arity` returns the `init` method's arity when one exists, else 0. -/
def LoxCallable.arity : LoxCallable → Nat
  | .func n _ => n
  | .bound m _ => LoxCallable.arity m
  | .cls c =>
      match hm : assocFind "init" c.methods with
      | some init => LoxCallable.arity init
      | none => 0
termination_by c => sizeOf c
decreasing_by
  · simp
    omega
  · have h1 := assocFind_sizeOf hm
    have h2 := methods_sizeOf_lt c
    simp
    omega

/-- Embeds `LoxInstance::get`: field table first, then the owning class's own
method table (materializing a fresh `LoxBoundMethod` over this instance),
else "Undefined property '<name>'.".  A dangling id cannot arise for
runtime-produced ids. -/
def LoxInstance.get (h : Heap) (id : Nat) (name : String) : Except String Value :=
  match heapGet h id with
  | none => .error "bad instance reference"
  | some r =>
      match assocFind name r.fields with
      | some v => .ok v
      | none =>
          match assocFind name r.klass.methods with
          | some m => .ok (.callable (.bound m id))
          | none => .error ("Undefined property '" ++ name ++ "'.")

/-- Embeds the template predicate `is<double>` on `Value`. -/
def isNumber : Value → Bool
  | .num _ => true
  | _ => false

/-- Embeds the template predicate `is<std::string>` on `Value`. -/
def isText : Value → Bool
  | .text _ => true
  | _ => false

/-- Embeds `asNumber`: the held number, or TypeError "Operand must be a
number.". -/
def asNumber : Value → Except String ℚ
  | .num x => .ok x
  | _ => .error "Operand must be a number."

/-- Embeds `asString`: the held text, or TypeError "Operand must be a
string.". -/
def asString : Value → Except String String
  | .text s => .ok s
  | _ => .error "Operand must be a string."

/-- Embeds `add`: numeric sum when both operands hold numbers, concatenation
when both hold text, otherwise TypeError. -/
def add (a b : Value) : Except String Value :=
  if isNumber a && isNumber b then do
    let x ← asNumber a
    let y ← asNumber b
    pure (.num (x + y))
  else if isText a && isText b then do
    let s ← asString a
    let t ← asString b
    pure (.text (s ++ t))
  else .error "Operands must be two numbers or two strings."

/-- Embeds `divide`: TypeError unless both operands hold numbers; the divisor
is tested against zero before the division is performed. -/
def divide (a b : Value) : Except String Value :=
  if isNumber a && isNumber b then do
    let divisor ← asNumber b
    if divisor = 0 then .error "Division by zero."
    else do
      let x ← asNumber a
      pure (.num (x / divisor))
  else .error "Operands must be two numbers or two strings."

/-- Embeds `equal`: false when the variant indices differ, then structural
comparison for number/text/boolean, true for nil (the other side is nil by
the index check), and false for every remaining alternative. -/
def equal (a b : Value) : Bool :=
  if a.variantIndex != b.variantIndex then false
  else
    match a, b with
    | .num x, .num y => x == y
    | .text s, .text t => s == t
    | .bool p, .bool q => p == q
    | .nil, _ => true
    | _, _ => false

/-- Stands for the text `operator<<` writes for a double with default stream
formatting; the exact C++ digit rendering is not modelled (no verified
property inspects this branch). -/
def numberRepr (x : ℚ) : String := toString x

/-- Embeds `print`: the full line written to standard output, including the
final newline from `std::endl`.  The branch order follows the source's
if/else-if chain; the `shared_ptr<LoxClass>` alternative is the only one not
matched by a dedicated branch and reaches the trailing `else`. -/
def print (v : Value) : String :=
  (match v with
   | .num x => numberRepr x
   | .text s => s
   | .bool b => if b then "true" else "false"
   | .nil => "nil"
   | .callable _ => "<fn>"
   | .inst _ => "<instance>"
   | .klass _ => "<unknown>") ++ "\n"

theorem call_func (n : Nat) (b : HostBody) (args : List Value) (h : Heap) :
    LoxCallable.call (.func n b) args h =
      if args.length = n then runBody b args h else .error "Wrong arity." := by
  rw [LoxCallable.call]

theorem call_bound (m : LoxCallable) (i : Nat) (args : List Value) (h : Heap) :
    LoxCallable.call (.bound m i) args h =
      LoxCallable.call m (.inst i :: args) h := by
  rw [LoxCallable.call]

theorem call_cls_none (c : LoxClass) (args : List Value) (h : Heap)
    (hm : assocFind "init" c.methods = none) :
    LoxCallable.call (.cls c) args h = .ok (.inst h.length, h ++ [⟨c, []⟩]) := by
  rw [LoxCallable.call]
  rw [hm]

theorem call_cls_some (c : LoxClass) (init : LoxCallable) (args : List Value)
    (h : Heap) (hm : assocFind "init" c.methods = some init) :
    LoxCallable.call (.cls c) args h =
      match LoxCallable.call init (.inst h.length :: args) (h ++ [⟨c, []⟩]) with
      | .ok (_, h2) => .ok (.inst h.length, h2)
      | .error e => .error e := by
  rw [LoxCallable.call]
  rw [hm]

theorem arity_cls_none (c : LoxClass)
    (hm : assocFind "init" c.methods = none) :
    LoxCallable.arity (.cls c) = 0 := by
  rw [LoxCallable.arity]
  rw [hm]

theorem arity_cls_some (c : LoxClass) (init : LoxCallable)
    (hm : assocFind "init" c.methods = some init) :
    LoxCallable.arity (.cls c) = LoxCallable.arity init := by
  rw [LoxCallable.arity]
  rw [hm]

theorem heapGet_concat_length (h : Heap) (r : LoxInstance) :
    heapGet (h ++ [r]) h.length = some r := by
  induction h with
  | nil => rfl
  | cons a t ih => simpa [heapGet, List.get?] using ih

theorem heapGet_set_self (h : Heap) (i : Nat) (r : LoxInstance)
    (hi : i < h.length) : heapGet (List.set h i r) i = some r := by
  induction h generalizing i with
  | nil => simp at hi
  | cons a t ih =>
      cases i with
      | zero => rfl
      | succ j =>
          have hj : j < t.length := by simpa using hi
          simpa [heapGet, List.set, List.get?] using ih j hj

/-- Claim C6: calling a bound method prepends the receiver instance to the
argument list and delegates to the wrapped method, and its arity is the
wrapped method's arity unchanged. -/
theorem boundMethod_call_prepends_receiver (m : LoxCallable) (i : Nat)
    (args : List Value) (h : Heap) :
    LoxCallable.call (.bound m i) args h =
      LoxCallable.call m ([Value.inst i] ++ args) h ∧
    LoxCallable.arity (.bound m i) = LoxCallable.arity m := by
  constructor
  · rw [call_bound]
    rfl
  · rw [LoxCallable.arity]

theorem except_bind_ok {ε α β : Type} (a : α) (f : α → Except ε β) :
    (Except.ok a >>= f : Except ε β) = f a := rfl

theorem except_pure {ε α : Type} (a : α) :
    (pure a : Except ε α) = Except.ok a := rfl

/-- Claim C7: `add` returns the numeric sum on two numbers, the concatenation
on two texts, and the TypeError "Operands must be two numbers or two strings."
on every other combination of variants (including mixed number/text). -/
theorem add_characterization (x y : ℚ) (s t : String) (a b : Value) :
    add (.num x) (.num y) = .ok (.num (x + y)) ∧
    add (.text s) (.text t) = .ok (.text (s ++ t)) ∧
    ((isNumber a && isNumber b) = false → (isText a && isText b) = false →
      add a b = .error "Operands must be two numbers or two strings.") := by
  refine ⟨rfl, rfl, ?_⟩
  intro h1 h2
  simp [add, h1, h2]

/-- Witness for C7 at concrete inputs, including the mixed number/text case. -/
theorem add_characterization_witness :
    add (.num 2) (.num 3) = .ok (.num 5) ∧
    add (.text "ab") (.text "cd") = .ok (.text "abcd") ∧
    add (.num 1) (.text "x") = .error "Operands must be two numbers or two strings." := by
  have h := add_characterization 2 3 "ab" "cd" (.num 1) (.text "x")
  have e1 : (2 : ℚ) + 3 = 5 := by norm_num
  have e2 : "ab" ++ "cd" = "abcd" := rfl
  exact ⟨e1 ▸ h.1, e2 ▸ h.2.1, h.2.2 rfl rfl⟩

/-- Claim C8: `divide` raises the TypeError unless both operands are numbers;
with a zero divisor it raises ArithmeticError "Division by zero." for every
dividend (the zero test precedes the division); otherwise it returns the
quotient. -/
theorem divide_characterization (x y : ℚ) (a b : Value) :
    ((isNumber a && isNumber b) = false →
      divide a b = .error "Operands must be two numbers or two strings.") ∧
    divide (.num x) (.num 0) = .error "Division by zero." ∧
    (y ≠ 0 → divide (.num x) (.num y) = .ok (.num (x / y))) := by
  refine ⟨?_, ?_, ?_⟩
  · intro h1
    simp [divide, h1]
  · simp [divide, isNumber, asNumber, except_bind_ok]
  · intro hy
    simp [divide, isNumber, asNumber, except_bind_ok, except_pure, hy]

/-- Witness for C8 at concrete inputs. -/
theorem divide_characterization_witness :
    divide .nil (.num 1) = .error "Operands must be two numbers or two strings." ∧
    divide (.num 7) (.num 0) = .error "Division by zero." ∧
    divide (.num 1) (.num 2) = .ok (.num (1 / 2)) := by
  have h := divide_characterization 7 2 .nil (.num 1)
  have h' := divide_characterization 1 2 .nil (.num 1)
  exact ⟨h.1 rfl, h.2.1, h'.2.2 (by norm_num)⟩

/-- Claim C9: `equal` is false across distinct variants, structural for
number/text/boolean, unconditionally true on nil against nil, and false on the
callable, instance and class alternatives even when both sides are the same
object; it never fails (it is a total Boolean function). -/
theorem equal_characterization (a b : Value) (x y : ℚ) (s t : String)
    (p q : Bool) (c c' : LoxCallable) (i i' : Nat) (k k' : LoxClass) :
    (a.variantIndex ≠ b.variantIndex → equal a b = false) ∧
    equal (.num x) (.num y) = (x == y) ∧
    equal (.text s) (.text t) = (s == t) ∧
    equal (.bool p) (.bool q) = (p == q) ∧
    equal .nil .nil = true ∧
    equal (.callable c) (.callable c') = false ∧
    equal (.inst i) (.inst i') = false ∧
    equal (.klass k) (.klass k') = false := by
  refine ⟨?_, rfl, rfl, rfl, rfl, rfl, rfl, rfl⟩
  intro hne
  simp [equal, hne]

/-- Witness for C9 at concrete inputs with distinct variants. -/
theorem equal_characterization_witness :
    equal (.num 1) .nil = false := by
  have h := equal_characterization (.num 1) .nil 0 0 "" "" true true
    (.func 0 .constNil) (.func 0 .constNil) 0 0 ⟨"", none, []⟩ ⟨"", none, []⟩
  exact h.1 (by decide)

/-- Claim C10: printing a value holding the class alternative writes the text
rendered by the trailing else of the if-chain, "<unknown>", followed by the
newline from `std::endl`; `print` is a total function and never fails. -/
theorem print_class_unknown (c : LoxClass) :
    print (.klass c) = "<unknown>" ++ "\n" := rfl

/-- Claim C4: `LoxInstance::get` returns the field value when the name is in
the field table (fields shadow methods); otherwise a freshly constructed bound
method over this instance when the owning class's own method table has the
name; otherwise the PropertyError whose message embeds the requested name. -/
theorem instance_get_characterization (h : Heap) (id : Nat) (name : String)
    (r : LoxInstance) (hr : heapGet h id = some r) :
    (∀ v, assocFind name r.fields = some v →
      LoxInstance.get h id name = .ok v) ∧
    (∀ m, assocFind name r.fields = none →
      assocFind name r.klass.methods = some m →
      LoxInstance.get h id name = .ok (.callable (.bound m id))) ∧
    (assocFind name r.fields = none →
      assocFind name r.klass.methods = none →
      LoxInstance.get h id name =
        .error ("Undefined property '" ++ name ++ "'.")) := by
  refine ⟨?_, ?_, ?_⟩
  · intro v hv
    simp [LoxInstance.get, hr, hv]
  · intro m hf hm
    simp [LoxInstance.get, hr, hf, hm]
  · intro hf hm
    simp [LoxInstance.get, hr, hf, hm]

/-- Witness for C4: a concrete instance whose field table holds "f", whose
class defines method "m", and which lacks "g" entirely. -/
theorem instance_get_characterization_witness :
    LoxInstance.get
      [⟨⟨"C", none, [("m", .func 1 .constNil)]⟩, [("f", .num 7)]⟩] 0 "f" =
      .ok (.num 7) ∧
    LoxInstance.get
      [⟨⟨"C", none, [("m", .func 1 .constNil)]⟩, [("f", .num 7)]⟩] 0 "m" =
      .ok (.callable (.bound (.func 1 .constNil) 0)) ∧
    LoxInstance.get
      [⟨⟨"C", none, [("m", .func 1 .constNil)]⟩, [("f", .num 7)]⟩] 0 "g" =
      .error ("Undefined property '" ++ "g" ++ "'.") := by
  have h1 := instance_get_characterization
    [⟨⟨"C", none, [("m", .func 1 .constNil)]⟩, [("f", .num 7)]⟩] 0 "f" _ rfl
  have h2 := instance_get_characterization
    [⟨⟨"C", none, [("m", .func 1 .constNil)]⟩, [("f", .num 7)]⟩] 0 "m" _ rfl
  have h3 := instance_get_characterization
    [⟨⟨"C", none, [("m", .func 1 .constNil)]⟩, [("f", .num 7)]⟩] 0 "g" _ rfl
  exact ⟨h1.1 (.num 7) rfl, h2.2.1 (.func 1 .constNil) rfl rfl, h3.2.2 rfl rfl⟩

/-- Claim C5: `LoxInstance::get` never consults the superclass chain: two
instances of classes that differ only in their superclass reference give
identical results for every name, and a name absent from both the field table
and the owning class's own method table raises the PropertyError even when the
superclass's method table defines it. -/
theorem instance_get_ignores_superclass (nm : String)
    (sup sup' : Option LoxClass) (ms : List (String × LoxCallable))
    (flds : List (String × Value)) (h h' : Heap) (id : Nat) (name : String)
    (hr : heapGet h id = some ⟨⟨nm, sup, ms⟩, flds⟩)
    (hr' : heapGet h' id = some ⟨⟨nm, sup', ms⟩, flds⟩) :
    LoxInstance.get h id name = LoxInstance.get h' id name ∧
    (∀ supc msup, sup = some supc →
      assocFind name supc.methods = some msup →
      assocFind name flds = none → assocFind name ms = none →
      LoxInstance.get h id name =
        .error ("Undefined property '" ++ name ++ "'.")) := by
  constructor
  · simp [LoxInstance.get, hr, hr', LoxClass.methods]
  · intro supc msup hsup hsupdef hf hm
    simp [LoxInstance.get, hr, LoxClass.methods, hf, hm]

/-- Witness for C5: the superclass defines "foo" but the instance's own class
does not, and the lookup still fails with the PropertyError. -/
theorem instance_get_ignores_superclass_witness :
    LoxInstance.get
      [⟨⟨"C", some ⟨"S", none, [("foo", .func 1 .constNil)]⟩, []⟩, []⟩] 0 "foo" =
      .error ("Undefined property '" ++ "foo" ++ "'.") := by
  have h := instance_get_ignores_superclass "C"
    (some ⟨"S", none, [("foo", .func 1 .constNil)]⟩)
    (some ⟨"S", none, [("foo", .func 1 .constNil)]⟩) [] []
    [⟨⟨"C", some ⟨"S", none, [("foo", .func 1 .constNil)]⟩, []⟩, []⟩]
    [⟨⟨"C", some ⟨"S", none, [("foo", .func 1 .constNil)]⟩, []⟩, []⟩]
    0 "foo" rfl rfl
  exact h.2 ⟨"S", none, [("foo", .func 1 .constNil)]⟩ (.func 1 .constNil)
    rfl rfl rfl rfl

/-- Claim C1: calling a class allocates a new instance of the class with an
empty field table; without an `init` method the instance is returned directly;
with one, a bound method `LoxBoundMethod(init, instance)` is invoked with the
caller's arguments (receiver injected by the binding), its result is
discarded, and the instance is returned.  In particular, for a class whose
`init` is the two-parameter (receiver plus one caller-visible argument)
store-into-"value" constructor, constructing with any value and reading field
"value" afterwards gives that value back. -/
theorem class_call_constructor_protocol (c : LoxClass) (args : List Value)
    (h : Heap) (v : Value) :
    (assocFind "init" c.methods = none →
      LoxCallable.call (.cls c) args h = .ok (.inst h.length, h ++ [⟨c, []⟩])) ∧
    (∀ init, assocFind "init" c.methods = some init →
      LoxCallable.call (.cls c) args h =
        Except.map (fun r => (Value.inst h.length, r.2))
          (LoxCallable.call (.bound init h.length) args (h ++ [⟨c, []⟩]))) ∧
    (assocFind "init" c.methods = some (.func 2 (.initSetValue "value")) →
      LoxCallable.call (.cls c) [v] h =
        .ok (.inst h.length,
             LoxInstance.set (h ++ [⟨c, []⟩]) h.length "value" v) ∧
      LoxInstance.get
        (LoxInstance.set (h ++ [⟨c, []⟩]) h.length "value" v)
        h.length "value" = .ok v) := by
  refine ⟨?_, ?_, ?_⟩
  · intro hm
    exact call_cls_none c args h hm
  · intro init hm
    rw [call_cls_some c init args h hm, call_bound]
    cases hcall : LoxCallable.call init (.inst h.length :: args) (h ++ [⟨c, []⟩]) with
    | ok p => cases p with | mk w h2 => simp [Except.map]
    | error e => simp [Except.map]
  · intro hm
    have hid : heapGet (h ++ [⟨c, []⟩]) h.length = some ⟨c, []⟩ :=
      heapGet_concat_length h ⟨c, []⟩
    have hset : LoxInstance.set (h ++ [⟨c, []⟩]) h.length "value" v =
        List.set (h ++ [⟨c, []⟩]) h.length ⟨c, assocInsert "value" v []⟩ := by
      simp [LoxInstance.set, hid]
    constructor
    · rw [call_cls_some c _ [v] h hm, call_func]
      simp [runBody]
    · rw [hset]
      simp [LoxInstance.get, heapGet_concat_length, assocInsert, assocFind]

/-- Witness for C1: the `MyClass` construction of main.cpp — `init` stores the
single caller-visible argument into field "value"; constructing with 123 and
reading "value" yields 123. -/
theorem class_call_constructor_protocol_witness :
    LoxCallable.call
      (.cls ⟨"MyClass", none,
        [("sayHello", .func 1 .constNil),
         ("init", .func 2 (.initSetValue "value"))]⟩) [.num 123] [] =
      .ok (.inst 0,
        [⟨⟨"MyClass", none,
           [("sayHello", .func 1 .constNil),
            ("init", .func 2 (.initSetValue "value"))]⟩,
          [("value", .num 123)]⟩]) ∧
    LoxInstance.get
      [⟨⟨"MyClass", none,
         [("sayHello", .func 1 .constNil),
          ("init", .func 2 (.initSetValue "value"))]⟩,
        [("value", .num 123)]⟩] 0 "value" = .ok (.num 123) := by
  have h := class_call_constructor_protocol
    ⟨"MyClass", none,
      [("sayHello", .func 1 .constNil),
       ("init", .func 2 (.initSetValue "value"))]⟩ [.num 123] [] (.num 123)
  have h3 := h.2.2 rfl
  exact ⟨h3.1, h3.2⟩

/-- Claim C2 (amended): `LoxClass::arity` is 0 without an `init` method and
otherwise the `init` method's own arity (receiver slot included); and for
every class whose `init` is a `LoxFunction`, calling the class with a
caller-visible argument count different from that arity minus the receiver
slot fails with ArityError "Wrong arity.".  (A class without `init` performs
no arity check at all — see the counterexample.) -/
theorem class_arity_and_ctor_arity_check (c : LoxClass) (n : Nat)
    (b : HostBody) (args : List Value) (h : Heap) :
    (assocFind "init" c.methods = none → LoxCallable.arity (.cls c) = 0) ∧
    (∀ init, assocFind "init" c.methods = some init →
      LoxCallable.arity (.cls c) = LoxCallable.arity init) ∧
    (assocFind "init" c.methods = some (.func n b) → args.length + 1 ≠ n →
      LoxCallable.call (.cls c) args h = .error "Wrong arity.") := by
  refine ⟨arity_cls_none c, fun init hm => arity_cls_some c init hm, ?_⟩
  intro hm hne
  rw [call_cls_some c _ args h hm, call_func]
  simp [hne]

/-- Witness for C2: the `MyClass` shape of main.cpp (`init` arity 2, one
caller-visible slot) called with zero caller-visible arguments fails with the
ArityError. -/
theorem class_arity_and_ctor_arity_check_witness :
    LoxCallable.arity
      (.cls ⟨"MyClass", none, [("init", .func 2 (.initSetValue "value"))]⟩) = 2 ∧
    LoxCallable.call
      (.cls ⟨"MyClass", none, [("init", .func 2 (.initSetValue "value"))]⟩)
      [] [] = .error "Wrong arity." := by
  have h := class_arity_and_ctor_arity_check
    ⟨"MyClass", none, [("init", .func 2 (.initSetValue "value"))]⟩
    2 (.initSetValue "value") [] []
  have e : LoxCallable.arity (.func 2 (.initSetValue "value")) = 2 := by
    rw [LoxCallable.arity]
  exact ⟨(h.2.1 (.func 2 (.initSetValue "value")) rfl).trans e,
    h.2.2 rfl (by decide)⟩

/-- Counterexample for C2 as stated: a class with no `init` method has
constructor arity 0, yet calling it with one argument does not fail with
ArityError — `LoxClass::call` performs no argument-count check when there is
no `init`, and simply returns the fresh instance. -/
theorem class_call_no_init_skips_arity_check :
    LoxCallable.arity (.cls ⟨"Empty", none, []⟩) = 0 ∧
    LoxCallable.call (.cls ⟨"Empty", none, []⟩) [.nil] [] =
      .ok (.inst 0, [⟨⟨"Empty", none, []⟩, []⟩]) := by
  exact ⟨arity_cls_none _ rfl, call_cls_none _ _ _ rfl⟩

/-- Claim C3 (amended): the runtime has a single function representation,
`LoxFunction`, used for natives (main.cpp's `clockFn`) as well as user
functions, and its `call` enforces the declared arity in every case: an
argument list whose length differs from `argCount` fails with ArityError
"Wrong arity." before the host routine runs, and one of matching length
invokes the host routine directly with the arguments. -/
theorem function_call_enforces_arity (n : Nat) (b : HostBody)
    (args : List Value) (h : Heap) :
    (args.length ≠ n →
      LoxCallable.call (.func n b) args h = .error "Wrong arity.") ∧
    (args.length = n →
      LoxCallable.call (.func n b) args h = runBody b args h) := by
  constructor
  · intro hne
    rw [call_func]
    simp [hne]
  · intro heq
    rw [call_func]
    simp [heq]

/-- Witness for C3: the zero-arity native called with its declared argument
count runs the host routine; called with one argument it fails. -/
theorem function_call_enforces_arity_witness :
    LoxCallable.call (.func 0 (.constNum 42)) [] [] = .ok (.num 42, []) ∧
    LoxCallable.call (.func 0 (.constNum 42)) [.nil] [] =
      .error "Wrong arity." := by
  have h0 := function_call_enforces_arity 0 (.constNum 42) [] []
  have h1 := function_call_enforces_arity 0 (.constNum 42) [.nil] []
  exact ⟨h0.2 rfl, h1.1 (by decide)⟩

/-- Counterexample for C3 as stated: the repository's native function (the
`clockFn` of main.cpp: declared arity 0, host routine returning 42) invoked
with an argument list of length 1 fails with ArityError "Wrong arity." instead
of invoking the host routine — the Callable protocol does enforce the declared
arity for natives, because natives are `LoxFunction`s. -/
theorem native_call_checks_arity :
    LoxCallable.call (.func 0 (.constNum 42)) [.num 1] [] =
      .error "Wrong arity." := by
  rw [call_func]
  simp
